import Mathlib

/-!
Verification of the contract-RAG core of the DSS5105 repository
(`langchain_rag_system.py`, class `AdvancedContractRAG`).

Python text is modelled as follows:
* for the Unicode normalizer `_normalize_text`, a string is the list of its
  Unicode codepoints (`List Nat`), since the function works codepoint-wise
  and involves astral-plane characters;
* for the source-attribution re-ranker inside `ask_question`, a string is a
  `List Char` (all inputs of interest are ASCII there).

External effects (PDF extraction, the FAISS index, the OpenAI backend,
pickle cache reads) are passed in as explicit parameters, so every function
here is executable and the claims can be evaluated on concrete inputs.
-/

namespace RagSpec

/-! ### Part A: the text normalizer (`_normalize_text`, lines 117-176)

The source builds three dicts (`math_italic_lowercase`, `math_italic_uppercase`,
`special_chars`), merges them, substitutes characters one by one, rewrites
`'$'` to `'S$'`, applies `unicodedata.normalize('NFKD', ...)`, and finally
keeps only characters `c` with `c.isprintable() or c.isspace()`. -/

/-- Codepoint table of the source's `math_italic_lowercase` dict
(U+1D44E..U+1D467, with the `h` entry written as U+1D629 in the source,
because the mathematical-italic `h` slot U+1D455 is a reserved codepoint). -/
def math_italic_lowercase : List (Nat × Nat) :=
  [(0x1D44E, 0x61), (0x1D44F, 0x62), (0x1D450, 0x63), (0x1D451, 0x64),
   (0x1D452, 0x65), (0x1D453, 0x66), (0x1D454, 0x67), (0x1D629, 0x68),
   (0x1D456, 0x69), (0x1D457, 0x6A), (0x1D458, 0x6B), (0x1D459, 0x6C),
   (0x1D45A, 0x6D), (0x1D45B, 0x6E), (0x1D45C, 0x6F), (0x1D45D, 0x70),
   (0x1D45E, 0x71), (0x1D45F, 0x72), (0x1D460, 0x73), (0x1D461, 0x74),
   (0x1D462, 0x75), (0x1D463, 0x76), (0x1D464, 0x77), (0x1D465, 0x78),
   (0x1D466, 0x79), (0x1D467, 0x7A)]

/-- Codepoint table of the source's `math_italic_uppercase` dict
(U+1D434..U+1D44D mapped to `A`..`Z`). -/
def math_italic_uppercase : List (Nat × Nat) :=
  [(0x1D434, 0x41), (0x1D435, 0x42), (0x1D436, 0x43), (0x1D437, 0x44),
   (0x1D438, 0x45), (0x1D439, 0x46), (0x1D43A, 0x47), (0x1D43B, 0x48),
   (0x1D43C, 0x49), (0x1D43D, 0x4A), (0x1D43E, 0x4B), (0x1D43F, 0x4C),
   (0x1D440, 0x4D), (0x1D441, 0x4E), (0x1D442, 0x4F), (0x1D443, 0x50),
   (0x1D444, 0x51), (0x1D445, 0x52), (0x1D446, 0x53), (0x1D447, 0x54),
   (0x1D448, 0x55), (0x1D449, 0x56), (0x1D44A, 0x57), (0x1D44B, 0x58),
   (0x1D44C, 0x59), (0x1D44D, 0x5A)]

/-- Codepoint table of the source's `special_chars` dict
(PLANCK CONSTANT, SCRIPT CAPITAL P, SCRIPT SMALL L / E / G / O). -/
def special_chars : List (Nat × Nat) :=
  [(0x210E, 0x68), (0x2118, 0x50), (0x2113, 0x6C),
   (0x212F, 0x65), (0x210A, 0x67), (0x2134, 0x6F)]

/-- The merged `char_map = {**math_italic_lowercase, **math_italic_uppercase,
**special_chars}`. The three dicts have pairwise disjoint keys, so the Python
merge (later entries win) equals first-match lookup on the concatenation. -/
def char_map : List (Nat × Nat) :=
  math_italic_lowercase ++ math_italic_uppercase ++ special_chars

/-- First-match association lookup (Python dict `get` on a disjoint-key list). -/
def assocFindN : List (Nat × Nat) → Nat → Option Nat
  | [], _ => none
  | p :: r, k => if p.1 = k then some p.2 else assocFindN r k

/-- One step of the source's per-character substitution loop:
`char_map.get(char, char)`. -/
def charMapFn (c : Nat) : Nat :=
  match assocFindN char_map c with
  | some v => v
  | none => c

/-- The source's `text.replace('$', 'S$')`, character-wise. -/
def dollarRep (c : Nat) : List Nat :=
  if c = 0x24 then [0x53, 0x24] else [c]

/-- Concatenating map (used to apply a codepoint-to-codepoints function to a
whole string). -/
def mapConcat (f : Nat → List Nat) : List Nat → List Nat
  | [] => []
  | c :: r => f c ++ mapConcat f r

/-- Association lookup into a codepoint-to-codepoints table. -/
def assocFindL : List (Nat × List Nat) → Nat → Option (List Nat)
  | [], _ => none
  | p :: r, k => if p.1 = k then some p.2 else assocFindL r k

/-- Modelled from the source's `unicodedata.normalize('NFKD', text)`:
the compatibility-decomposition table of NFKD, tabulated on the codepoints
this normalizer touches (every `char_map` key that has a decomposition — all
of them except U+2118 SCRIPT CAPITAL P, which is NFKD-stable — together with
the fullwidth dollar sign U+FF04, which decomposes to `'$'`), and the
identity on every other codepoint.  No combining characters arise here, so
NFKD acts codepoint-wise on these inputs. -/
def nfkdTable : List (Nat × List Nat) :=
  [(0x1D44E, [0x61]), (0x1D44F, [0x62]), (0x1D450, [0x63]), (0x1D451, [0x64]),
   (0x1D452, [0x65]), (0x1D453, [0x66]), (0x1D454, [0x67]), (0x1D629, [0x68]),
   (0x1D456, [0x69]), (0x1D457, [0x6A]), (0x1D458, [0x6B]), (0x1D459, [0x6C]),
   (0x1D45A, [0x6D]), (0x1D45B, [0x6E]), (0x1D45C, [0x6F]), (0x1D45D, [0x70]),
   (0x1D45E, [0x71]), (0x1D45F, [0x72]), (0x1D460, [0x73]), (0x1D461, [0x74]),
   (0x1D462, [0x75]), (0x1D463, [0x76]), (0x1D464, [0x77]), (0x1D465, [0x78]),
   (0x1D466, [0x79]), (0x1D467, [0x7A]),
   (0x1D434, [0x41]), (0x1D435, [0x42]), (0x1D436, [0x43]), (0x1D437, [0x44]),
   (0x1D438, [0x45]), (0x1D439, [0x46]), (0x1D43A, [0x47]), (0x1D43B, [0x48]),
   (0x1D43C, [0x49]), (0x1D43D, [0x4A]), (0x1D43E, [0x4B]), (0x1D43F, [0x4C]),
   (0x1D440, [0x4D]), (0x1D441, [0x4E]), (0x1D442, [0x4F]), (0x1D443, [0x50]),
   (0x1D444, [0x51]), (0x1D445, [0x52]), (0x1D446, [0x53]), (0x1D447, [0x54]),
   (0x1D448, [0x55]), (0x1D449, [0x56]), (0x1D44A, [0x57]), (0x1D44B, [0x58]),
   (0x1D44C, [0x59]), (0x1D44D, [0x5A]),
   (0x210E, [0x68]), (0x2113, [0x6C]), (0x212F, [0x65]),
   (0x210A, [0x67]), (0x2134, [0x6F]),
   (0xFF04, [0x24])]

/-- NFKD of a single codepoint under the tabulated model. -/
def nfkdChar (c : Nat) : List Nat :=
  match assocFindL nfkdTable c with
  | some ds => ds
  | none => [c]

/-- Modelled from the source's final filter
`c.isprintable() or c.isspace()`: the Python whitespace codepoints. -/
def pySpaceCodes : List Nat :=
  [0x09, 0x0A, 0x0B, 0x0C, 0x0D, 0x1C, 0x1D, 0x1E, 0x1F, 0x20, 0x85, 0xA0,
   0x1680, 0x2000, 0x2001, 0x2002, 0x2003, 0x2004, 0x2005, 0x2006, 0x2007,
   0x2008, 0x2009, 0x200A, 0x2028, 0x2029, 0x202F, 0x205F, 0x3000]

/-- The `str.isspace` predicate of a single codepoint. -/
def pyIsSpace (c : Nat) : Bool := pySpaceCodes.contains c

/-- The non-space separator codepoints (category Zs minus the ASCII space),
which `str.isprintable` rejects. -/
def pySepCodes : List Nat :=
  [0xA0, 0x1680, 0x2000, 0x2001, 0x2002, 0x2003, 0x2004, 0x2005, 0x2006,
   0x2007, 0x2008, 0x2009, 0x200A, 0x2028, 0x2029, 0x202F, 0x205F, 0x3000]

/-- The `str.isprintable` predicate, modelled on the control (Cc) and
separator (Zs/Zl/Zp) categories; format, surrogate and unassigned codepoints
are not distinguished (none is produced by the preceding stages). -/
def pyIsPrintable (c : Nat) : Bool :=
  !(c < 0x20) && !(0x7F ≤ c && c ≤ 0x9F) && !(pySepCodes.contains c)

/-- A codepoint survives the normalizer's final filter iff it is printable or
whitespace. -/
def pyKeep (c : Nat) : Bool := pyIsPrintable c || pyIsSpace c

/-- The full `_normalize_text` pipeline: per-character `char_map`
substitution, then `replace('$', 'S$')`, then NFKD, then the
printable-or-space filter. -/
def normalize_text (x : List Nat) : List Nat :=
  (mapConcat nfkdChar (mapConcat dollarRep (x.map charMapFn))).filter pyKeep

/-! ### Part B: the source-attribution re-ranker (`ask_question`, lines 528-642)

The re-ranker extracts salient tokens from the generated answer with three
`re.findall` calls, scores every retrieved chunk by weighted token overlap,
and selects which chunks to report as sources.  The three regular
expressions are compiled here by hand into scanning functions with the exact
backtracking semantics of Python `re` (leftmost, non-overlapping,
alternatives in order, greedy quantifiers).  Lowercasing is `str.lower`
restricted to ASCII, and `\w`/`\d` are their ASCII parts — all text these
claims touch is ASCII. -/

/-- A character of the `[\x2f\x2d]` class. -/
def isSepCh (c : Char) : Bool := c == '/' || c == '-'

/-- A regex word character (`\w`, ASCII part): letter, digit or underscore. -/
def isWordCh (c : Char) : Bool := c.isAlphanum || c == '_'

/-- Word-character test lifted to the optional character before the scan
position (`none` at the start of the string). -/
def isWordOpt : Option Char → Bool
  | none => false
  | some c => isWordCh c

/-- A `\b` boundary holds after a word character iff the following text does
not begin with a word character. -/
def boundaryAfter : List Char → Bool
  | [] => true
  | c :: _ => !(isWordCh c)

/-- Python `str.lower`, ASCII-wise. -/
def lowerStr (s : List Char) : List Char := s.map Char.toLower

/-- Does the first list start with the second (needle) list? -/
def leadEq : List Char → List Char → Bool
  | [], _ => true
  | _ :: _, [] => false
  | a :: xs, b :: ys => a == b && leadEq xs ys

/-- Python's substring test `needle in hay`. -/
def containsSub (needle : List Char) : List Char → Bool
  | [] => leadEq needle []
  | c :: t => leadEq needle (c :: t) || containsSub needle t

/-- The re-ranker's per-keyword hit test
`keyword.lower() in content.lower()`. -/
def foundIn (kw content : List Char) : Bool :=
  containsSub (lowerStr kw) (lowerStr content)

/-- Greedy tail of the number regex after its first digit:
`\d+[,\d]*\.?\d*` matched at the head of `s` (callers guarantee the first
character is a digit).  All three trailing pieces are nullable, so the
greedy result needs no backtracking. -/
def numCore (s : List Char) : List Char :=
  let d1 := s.takeWhile Char.isDigit
  let r1 := s.dropWhile Char.isDigit
  let d2 := r1.takeWhile fun c => c.isDigit || c == ','
  let r2 := r1.dropWhile fun c => c.isDigit || c == ','
  match r2 with
  | '.' :: r3 => d1 ++ d2 ++ '.' :: r3.takeWhile Char.isDigit
  | _ => d1 ++ d2

/-- Match of `\$?\d+[,\d]*\.?\d*` anchored at the current position.  A lone
`'$'` not followed by a digit fails: the backtracking alternative drops the
optional `\$?` and then `\d+` fails on `'$'`. -/
def matchNumberAt : List Char → Option (List Char)
  | '$' :: c :: r => if c.isDigit then some ('$' :: numCore (c :: r)) else none
  | c :: r => if c.isDigit then some (numCore (c :: r)) else none
  | [] => none

/-- Scanner for `re.findall` of the number regex: try a match at every
position, left to right; on a hit, emit it and resume after it (the `skip`
counter walks over the remainder of the reported match, whose head character
was already consumed). -/
def findNumbersGo : Nat → List Char → List (List Char)
  | _, [] => []
  | Nat.succ skip, _ :: t => findNumbersGo skip t
  | 0, c :: t =>
    match matchNumberAt (c :: t) with
    | some m => m :: findNumbersGo (m.length - 1) t
    | none => findNumbersGo 0 t

/-- The source's `re.findall(r'\$?\d+[,\d]*\.?\d*', answer_text)`. -/
def findNumbers (s : List Char) : List (List Char) := findNumbersGo 0 s

/-- Backtracking candidates for `\d{lo,hi}` at the head of `s`: the splits
(matched digits, rest) in the greedy order (longest first). -/
def candDigits (lo hi : Nat) (s : List Char) : List (List Char × List Char) :=
  (List.range (hi + 1)).reverse.filterMap fun k =>
    if lo ≤ k ∧ k ≤ (s.takeWhile Char.isDigit).length then some (s.take k, s.drop k)
    else none

/-- First alternative of the date regex,
`\d{1,2}[\x2f\x2d]\d{1,2}[\x2f\x2d]\d{2,4}\b`, anchored at the current position (the
leading `\b` is checked by the scanner). -/
def matchAltA (s : List Char) : Option (List Char) :=
  (candDigits 1 2 s).findSome? fun p1 =>
    match p1.2 with
    | sep1 :: r2 =>
      if isSepCh sep1 then
        (candDigits 1 2 r2).findSome? fun p2 =>
          match p2.2 with
          | sep2 :: r4 =>
            if isSepCh sep2 then
              (candDigits 2 4 r4).findSome? fun p3 =>
                if boundaryAfter p3.2 then
                  some (p1.1 ++ sep1 :: p2.1 ++ sep2 :: p3.1)
                else none
            else none
          | [] => none
      else none
    | [] => none

/-- The twelve month names of the date regex, lowercased for the
`re.IGNORECASE` comparison. -/
def monthNames : List (List Char) :=
  ["jan", "feb", "mar", "apr", "may", "jun",
   "jul", "aug", "sep", "oct", "nov", "dec"].map String.data

/-- Tail `' \d{4}\b'` of the second date alternative: a literal space, then
exactly four digits, then a word boundary. -/
def yearTail (r : List Char) : Option (List Char) :=
  match r with
  | ' ' :: rr =>
    let y := rr.take 4
    if y.length = 4 ∧ y.all Char.isDigit ∧ boundaryAfter (rr.drop 4) then
      some (' ' :: y)
    else none
  | _ => none

/-- Second alternative of the date regex,
`(?:Jan|Feb|Mar|Apr|May|Jun|Jul|Aug|Sep|Oct|Nov|Dec)[a-z]* \d{1,2},? \d{4}\b`
with `re.IGNORECASE`, anchored at the current position.  Under `IGNORECASE`
the class `[a-z]*` accepts every ASCII letter; the atom after it is a literal
space, which no letter matches, so shrinking that greedy run can never help
and the maximal run is the only viable choice.  The greedy `,?` first tries
to consume a comma and falls back to the empty match. -/
def matchAltB (s : List Char) : Option (List Char) :=
  match s with
  | m1 :: m2 :: m3 :: r3 =>
    if monthNames.contains (lowerStr [m1, m2, m3]) then
      let letters := r3.takeWhile Char.isAlpha
      match r3.dropWhile Char.isAlpha with
      | ' ' :: r4 =>
        (candDigits 1 2 r4).findSome? fun pd =>
          match pd.2 with
          | ',' :: rc =>
            match yearTail rc with
            | some t => some (m1 :: m2 :: m3 :: letters ++ ' ' :: pd.1 ++ ',' :: t)
            | none =>
              (yearTail pd.2).map fun t =>
                m1 :: m2 :: m3 :: letters ++ ' ' :: pd.1 ++ t
          | _ =>
            (yearTail pd.2).map fun t =>
              m1 :: m2 :: m3 :: letters ++ ' ' :: pd.1 ++ t
      | _ => none
    else none
  | _ => none

/-- Scanner for the date regex.  Both alternatives begin with a word
character (a digit or a month letter), so their leading `\b` is equivalent
to the previous character not being a word character; `prev` tracks that
character across the scan. -/
def findDatesGo : Option Char → Nat → List Char → List (List Char)
  | _, _, [] => []
  | _, Nat.succ skip, c :: t => findDatesGo (some c) skip t
  | prev, 0, c :: t =>
    if isWordOpt prev then findDatesGo (some c) 0 t
    else
      match matchAltA (c :: t) with
      | some m => m :: findDatesGo (some c) (m.length - 1) t
      | none =>
        match matchAltB (c :: t) with
        | some m => m :: findDatesGo (some c) (m.length - 1) t
        | none => findDatesGo (some c) 0 t

/-- The source's `re.findall` of the date regex over the answer text. -/
def findDates (s : List Char) : List (List Char) := findDatesGo none 0 s

/-- Match of `\b[A-Za-z]{4,}\b` at the current position: a maximal ASCII
letter run of length at least 4 whose neighbours are not word characters.
If the character after the maximal run is a word character, every shorter
run also ends at a letter, so backtracking inside `{4,}` can never satisfy
the trailing `\b`, and the match fails outright. -/
def matchWordAt (prev : Option Char) (s : List Char) : Option (List Char) :=
  if isWordOpt prev then none
  else
    let run := s.takeWhile Char.isAlpha
    if 4 ≤ run.length ∧ boundaryAfter (s.dropWhile Char.isAlpha) then some run
    else none

/-- Scanner for the word regex. -/
def findWordsGo : Option Char → Nat → List Char → List (List Char)
  | _, _, [] => []
  | _, Nat.succ skip, c :: t => findWordsGo (some c) skip t
  | prev, 0, c :: t =>
    match matchWordAt prev (c :: t) with
    | some m => m :: findWordsGo (some c) (m.length - 1) t
    | none => findWordsGo (some c) 0 t

/-- The source's `re.findall(r'\b[A-Za-z]{4,}\b', answer_text.lower())`. -/
def findWords (s : List Char) : List (List Char) := findWordsGo none 0 s

/-- The stop-word set of `ask_question` (line 553). -/
def stopwords : List (List Char) :=
  ["the", "and", "for", "are", "but", "not", "you", "all", "can", "her",
   "was", "one", "our", "out", "day", "has", "him", "his", "how", "its",
   "may", "new", "now", "old", "see", "two", "who", "will", "with"].map
    String.data

/-- The content words kept from the lowercased answer:
`[w for w in words if w not in stopwords]`. -/
def wordsOf (answer : List Char) : List (List Char) :=
  (findWords (lowerStr answer)).filter fun w => !(stopwords.contains w)

/-- The salient-token set `answer_keywords`.  Python accumulates the three
extractions into a `set`; its iteration order is unspecified, and every
downstream use (the score, a sum) is order- and multiplicity-independent
(claim C10), so the set is represented by the deduplicated concatenation. -/
def answerKeywords (answer : List Char) : List (List Char) :=
  (findNumbers answer ++ findDates answer ++ wordsOf answer).dedup

/-- The `re.match(r'\$?\d+', keyword)` test of the scoring loop: an optional
dollar sign followed by a digit, at the start of the keyword. -/
def matchesNumLead : List Char → Bool
  | '$' :: c :: _ => c.isDigit
  | c :: _ => c.isDigit
  | [] => false

/-- One anchored attempt of `\d{1,2}[\x2f\x2d]\d{1,2}`. -/
def dayPairAt (s : List Char) : Bool :=
  (candDigits 1 2 s).any fun p =>
    match p.2 with
    | sep :: c2 :: _ => isSepCh sep && c2.isDigit
    | _ => false

/-- The `re.search(r'\d{1,2}[\x2f\x2d]\d{1,2}', keyword)` test of the scoring
loop: an anchored attempt at every position. -/
def containsDayPair : List Char → Bool
  | [] => false
  | c :: t => dayPairAt (c :: t) || containsDayPair t

/-- The per-keyword score increment of the loop at lines 567-579: 10 for a
keyword matching `\$?\d+` at its start, else 8 for a keyword containing a
`\d{1,2}[\x2f\x2d]\d{1,2}` pattern, else 2. -/
def kwContrib (kw : List Char) : Nat :=
  if matchesNumLead kw then 10
  else if containsDayPair kw then 8
  else 2

/-- The scoring loop over the keyword set, accumulating `score` and
`matched_keywords` exactly as the Python `for` loop does. -/
def scoreLoopGo (content : List Char) (score : Nat) (matched : List (List Char)) :
    List (List Char) → Nat × List (List Char)
  | [] => (score, matched)
  | kw :: rest =>
    if foundIn kw content then
      scoreLoopGo content (score + kwContrib kw) (matched ++ [kw]) rest
    else scoreLoopGo content score matched rest

/-- A chunk's relevance score against a keyword set. -/
def chunkScore (kws : List (List Char)) (content : List Char) : Nat :=
  (scoreLoopGo content 0 [] kws).1

/-- A chunk's relevance score against the salient tokens of an answer. -/
def docScore (answer content : List Char) : Nat :=
  chunkScore (answerKeywords answer) content

/-- A retrieved chunk as the re-ranker sees it: `page_content` plus the
`source` and `page` metadata (each defaulted to `"Unknown"` upstream). -/
structure SrcDoc where
  page_content : List Char
  source : List Char
  page : List Char
deriving DecidableEq

/-- An entry of the returned `sources` list. -/
structure SourceOut where
  content : List Char
  source : List Char
  page : List Char
  similarity_score : Nat
deriving DecidableEq

/-- An entry of the internal `scored_sources` list. -/
structure Scored where
  score : Nat
  content : List Char
  source : List Char
  page : List Char
  matched_keywords : List (List Char)
deriving DecidableEq

/-- A fallback source entry: raw chunk with `similarity_score` 0. -/
def fallbackOut (d : SrcDoc) : SourceOut :=
  ⟨d.page_content, d.source, d.page, 0⟩

/-- A scored source entry, carrying its score. -/
def scoredOut (s : Scored) : SourceOut :=
  ⟨s.content, s.source, s.page, s.score⟩

/-- Stable descending insertion: an element is placed before the first
strictly smaller score, after all earlier elements with an equal score. -/
def insertDesc (x : Scored) : List Scored → List Scored
  | [] => [x]
  | y :: r => if y.score ≤ x.score then x :: y :: r else y :: insertDesc x r

/-- Python's `scored_sources.sort(key=lambda x: x["score"], reverse=True)` is
a stable descending sort; a stable sort's output is unique, and this
insertion sort realizes it. -/
def sortDesc : List Scored → List Scored
  | [] => []
  | x :: r => insertDesc x (sortDesc r)

/-- The `scored_sources` list: every retrieved chunk with a positive score,
in retrieval order. -/
def scoredOf (answer : List Char) (docs : List SrcDoc) : List Scored :=
  docs.filterMap fun d =>
    let r := scoreLoopGo d.page_content 0 [] (answerKeywords answer)
    if 0 < r.1 then some ⟨r.1, d.page_content, d.source, d.page, r.2⟩ else none

/-- The `filtered_sources` list: the sorted scored sources with score at
least 20. -/
def filteredOf (answer : List Char) (docs : List SrcDoc) : List Scored :=
  (sortDesc (scoredOf answer docs)).filter fun s => 20 ≤ s.score

/-- The block of lines 591-630 computing `sources`: the first-3 raw fallback
when nothing scored, the sort + ≥20 filter, the fallback again when nothing
clears the threshold, and otherwise `filtered_sources[:num_sources]` with
`num_sources = 1 if len(filtered_sources) < 3 else 3`. -/
def selectSources (answer : List Char) (docs : List SrcDoc) : List SourceOut :=
  if scoredOf answer docs = [] then (docs.take 3).map fallbackOut
  else if filteredOf answer docs = [] then (docs.take 3).map fallbackOut
  else
    ((filteredOf answer docs).take
      (if (filteredOf answer docs).length < 3 then 1 else 3)).map scoredOut

/-- The complete source-selection post-processing of `ask_question`
(lines 529-642): the empty-answer/empty-retrieval early return, the
`sources` block, and the final single-number collapse
`if len(numbers) == 1 and len(dates) == 0 and len(sources) > 1`. -/
def computeSources (answer : List Char) (docs : List SrcDoc) : List SourceOut :=
  if answer = [] ∨ docs = [] then []
  else
    let sources := selectSources answer docs
    if (findNumbers answer).length = 1 ∧ (findDates answer).length = 0 ∧
        1 < sources.length then
      sources.take 1
    else sources

/-! ### Part C: document store, index lifecycle and the QA engine

State of an `AdvancedContractRAG` instance, restricted to the fields the
claims concern.  Python dicts are insertion-ordered association lists; the
FAISS vector store and the retriever are modelled by the chunk list they
index; the conversation memory is the full `(question, answer)` buffer of
`ConversationBufferWindowMemory` (whose window `k=3` applies on read).
External effects are parameters: whether the file exists, the outcome of the
pickle cache read, the extraction/normalization/split result, and the
language-model backend. -/

/-- A stored chunk (its normalized text; provenance metadata is opaque). -/
structure Chunk where
  text : List Char
deriving DecidableEq

/-- The per-contract stats entry (restricted to the chunk count). -/
structure Stats where
  chunks : Nat
deriving DecidableEq

/-- The mutable state of the RAG engine. -/
structure RagState where
  documents : List (List Char × List Chunk)
  contract_metadata : List (List Char × Stats)
  vectorstore : Option (List Chunk)
  retriever : Option (List Chunk)
  memory : List (List Char × List Char)
deriving DecidableEq

/-- Python dict assignment `d[k] = v`: replace in place if the key exists,
else append. -/
def assocUpdate {α : Type} (l : List (List Char × α)) (k : List Char) (v : α) :
    List (List Char × α) :=
  if l.any fun p => p.1 == k then
    l.map fun p => if p.1 == k then (k, v) else p
  else l ++ [(k, v)]

/-- Membership test `key in dict`. -/
def hasDoc (st : RagState) (path : List Char) : Bool :=
  st.documents.any fun p => p.1 == path

/-- The source's `clear_all_documents` (lines 1150-1166): clear the document
dict and the metadata dict, drop the vector store and retriever, clear the
conversation memory. -/
def clear_all_documents (_st : RagState) : RagState :=
  { documents := [], contract_metadata := [], vectorstore := none,
    retriever := none, memory := [] }

/-- The source's `ensure_single_document` (lines 1179-1195): `true` when the
single loaded document is the requested one; otherwise clear everything if a
different document is loaded, and report `false`. -/
def ensure_single_document (st : RagState) (path : List Char) : Bool × RagState :=
  if st.documents.length = 1 ∧ hasDoc st path then (true, st)
  else if st.documents ≠ [] ∧ ¬hasDoc st path then (false, clear_all_documents st)
  else (false, st)

/-- The source's `_rebuild_vectorstore` (lines 325-346): flatten every stored
document's chunks into one list and index it; when there are no chunks the
previous store is left untouched (the `if all_documents:` guard). -/
def rebuild_vectorstore (st : RagState) : RagState :=
  let all_documents := (st.documents.map Prod.snd).flatten
  if all_documents ≠ [] then
    { st with vectorstore := some all_documents, retriever := some all_documents }
  else st

/-- Outcome of the cache probe and read in `load_pdf`: no cache file, a read
that raises (the `open`/`pickle.load` at lines 232-233 has no handler), or a
successful read. -/
inductive CacheRead where
  | absent : CacheRead
  | failed : List Char → CacheRead
  | hit : List Chunk → Stats → CacheRead
deriving DecidableEq

/-- The dict returned by `load_pdf`, restricted to success flag and
message. -/
structure LoadResult where
  success : Bool
  message : List Char
deriving DecidableEq

/-- The source's `load_pdf` (lines 201-317).  `fileExists` models
`pdf_path.exists()`; `cache` the cache probe/read; `extract` the combined
loader + normalization + splitting outcome (`none` when every PDF backend
fails).  A raising cache read propagates as `.error`; everything else
returns `.ok` with the result dict and the successor state.  The cache
write on the fresh path is an external effect with no state change here. -/
def load_pdf (st : RagState) (path : List Char) (fileExists : Bool)
    (cache : CacheRead) (extract : Option (List Chunk)) (use_cache : Bool) :
    Except (List Char) (LoadResult × RagState) :=
  if fileExists = false then
    .ok (⟨false, ("File not found: ").data ++ path⟩, st)
  else
    match ensure_single_document st path with
    | (true, st1) => .ok (⟨true, ("Document already loaded").data⟩, st1)
    | (false, st1) =>
      match use_cache, cache with
      | true, CacheRead.failed e => .error e
      | true, CacheRead.hit chunks _stats =>
        let st2 := { st1 with documents := assocUpdate st1.documents path chunks }
        .ok (⟨true, ("Loaded from cache").data⟩, rebuild_vectorstore st2)
      | _, _ =>
        match extract with
        | none => .ok (⟨false, ("Failed to extract text from PDF").data⟩, st1)
        | some chunks =>
          let st2 := { st1 with documents := assocUpdate st1.documents path chunks }
          let st3 := rebuild_vectorstore st2
          let meta4 := assocUpdate st3.contract_metadata path ⟨chunks.length⟩
          let st4 := { st3 with contract_metadata := meta4 }
          .ok (⟨true, ("Successfully loaded").data⟩, st4)

/-- The chat history handed to the chain: the last `k` turns kept by
`ConversationBufferWindowMemory` (`k = 3`). -/
def windowHistory (k : Nat) (m : List (List Char × List Char)) :
    List (List Char × List Char) :=
  m.drop (m.length - k)

/-- The dict returned by `ask_question`; the early no-vector-store return
carries no `tokens_used` key, hence the `Option`. -/
structure QAResult where
  answer : List Char
  sources : List SourceOut
  tokens_used : Option Nat
deriving DecidableEq

/-- The fixed no-document answer of `ask_question` (line 485). -/
def no_contract_answer : List Char :=
  ("No contract loaded. Please upload a PDF contract first.").data

/-- The source's `ask_question` (lines 479-642).  The chain invocation is
the `backend` parameter, a function of the question and the chat history
read from memory; it yields the answer text, the retrieved source documents
and the token count, or raises.  On success the turn is appended to memory
(`save_context`, line 524) and the sources are post-processed; on a raise
the exception propagates and the state is untouched.  The
`use_compression` flag only changes which retriever the backend wraps, so it
is absorbed into `backend`. -/
def ask_question (st : RagState) (question : List Char)
    (backend : List Char → List (List Char × List Char) →
      Except (List Char) (List Char × List SrcDoc × Nat)) :
    Except (List Char) QAResult × RagState :=
  match st.vectorstore with
  | none => (.ok ⟨no_contract_answer, [], none⟩, st)
  | some _ =>
    let chat_history := windowHistory 3 st.memory
    match backend question chat_history with
    | .error e => (.error e, st)
    | .ok (answer_text, source_documents, toks) =>
      let st1 := { st with memory := st.memory ++ [(question, answer_text)] }
      (.ok ⟨answer_text, computeSources answer_text source_documents, some toks⟩,
        st1)

/-- Shorthand for the language-model backend of `ask_question`. -/
def Backend : Type :=
  List Char → List (List Char × List Char) →
    Except (List Char) (List Char × List SrcDoc × Nat)

/-! ### Concrete fixtures used by counterexamples and witnesses -/

/-- Answer text exercising the slash-date score branch. -/
def ansC3 : List Char := ("Due 12/25/2023").data

/-- The slash-date salient token of `ansC3`. -/
def tokC3 : List Char := ("12/25/2023").data

/-- Answer text with exactly one numeric token and no dates. -/
def ansC4 : List Char := ("Rent: 2500").data

/-- Three retrieved chunks, each scoring below 20 against `ansC4`. -/
def docsC4 : List SrcDoc :=
  [⟨("the rent clause").data, ("a.pdf").data, ("1").data⟩,
   ⟨("rent is due").data, ("a.pdf").data, ("2").data⟩,
   ⟨("late rent fee").data, ("a.pdf").data, ("3").data⟩]

/-- Answer text with no numeric token (the final collapse cannot fire). -/
def ansC4w : List Char := ("The rent rises").data

/-- One low-scoring retrieved chunk for `ansC4w`. -/
def docsC4w : List SrcDoc :=
  [⟨("rent rises soon").data, ("a.pdf").data, ("1").data⟩]

/-- Answer text with exactly one numeric token whose keyword set lets three
chunks reach the score threshold. -/
def ansC5 : List Char :=
  ("Rent 2500 with monthly payment amounts included herein").data

/-- Three retrieved chunks each scoring exactly 20 against `ansC5`. -/
def docsC5 : List SrcDoc :=
  [⟨("rent 2500 monthly payment amounts included").data, ("a.pdf").data, ("1").data⟩,
   ⟨("2500 rent monthly payment amounts herein").data, ("a.pdf").data, ("2").data⟩,
   ⟨("included herein rent monthly payment 2500").data, ("a.pdf").data, ("3").data⟩]

/-- Answer text with two numeric tokens (no final collapse). -/
def ansC5w : List Char :=
  ("Fees 2500 and 3600 monthly payment amounts included").data

/-- One chunk scoring 28 against `ansC5w`. -/
def docsC5w : List SrcDoc :=
  [⟨("fees 2500 3600 monthly payment amounts").data, ("a.pdf").data, ("1").data⟩]

/-- Answer text containing the currency amount `$2,500`. -/
def ansC6 : List Char := ("The rent is $2,500 per month").data

/-- The currency token of `ansC6`. -/
def amtC6 : List Char := ("$2,500").data

/-- A chunk containing the currency amount of `ansC6` and nothing else
salient. -/
def chunkC6a : List Char := ("amount due: $2,500").data

/-- A chunk matching only the generic keyword `rent` of `ansC6`. -/
def chunkC6b : List Char := ("tenant pays rent").data

/-- The generic keyword matched by `chunkC6b`. -/
def kwC6 : List Char := ("rent").data

/-- A freshly constructed engine state: nothing loaded. -/
def emptyState : RagState := ⟨[], [], none, none, []⟩

/-- A state with document `a.pdf` active, a non-trivial index, and one
remembered conversation turn. -/
def stC1 : RagState :=
  ⟨[(("a.pdf").data, [⟨("alpha").data⟩])],
   [(("a.pdf").data, ⟨1⟩)],
   some [⟨("alpha").data⟩], some [⟨("alpha").data⟩],
   [(("q").data, ("ans").data)]⟩

/-- The chunks of the second document loaded in the C1 witness. -/
def chunksC1 : List Chunk := [⟨("beta").data⟩]

/-- A state with an index present and one remembered turn, for the C8
witness. -/
def stC8 : RagState :=
  ⟨[(("a.pdf").data, [⟨("t").data⟩])], [], some [⟨("t").data⟩],
   some [⟨("t").data⟩], [(("q1").data, ("a1").data)]⟩

/-- A backend whose chain invocation raises. -/
def backendErr : Backend := fun _ _ => .error (("boom").data)

/-- A backend whose chain invocation succeeds with a fixed result. -/
def backendOk : Backend := fun _ _ => .ok ((("ans2").data), [], 7)

/-- Path of the document whose cache entry is corrupt in the C9 fixtures. -/
def pathC9 : List Char := ("c.pdf").data

/-- The exception raised by the failing cache read. -/
def errC9 : List Char := ("unpickling error").data

/-- The chunks fresh extraction would produce in the C9 fixtures. -/
def chunksC9 : List Chunk := [⟨("text").data⟩]

/-! ### Shared lemmas about the re-ranker -/

theorem scoreLoopGo_fst (content : List Char) :
    ∀ (kws : List (List Char)) (s : Nat) (m : List (List Char)),
      (scoreLoopGo content s m kws).1 =
        s + ((kws.filter fun kw => foundIn kw content).map kwContrib).sum := by
  intro kws
  induction kws with
  | nil => intro s m; simp [scoreLoopGo]
  | cons kw rest ih =>
    intro s m
    by_cases h : foundIn kw content
    · simp [scoreLoopGo, h, ih, Nat.add_assoc]
    · simp [scoreLoopGo, h, ih]

/-- The scoring loop computes the sum of the per-keyword contributions of
the keywords found in the chunk. -/
theorem chunkScore_eq_sum (kws : List (List Char)) (content : List Char) :
    chunkScore kws content =
      ((kws.filter fun kw => foundIn kw content).map kwContrib).sum := by
  simp [chunkScore, scoreLoopGo_fst]

theorem mem_insertDesc {a x : Scored} :
    ∀ {l : List Scored}, a ∈ insertDesc x l ↔ a = x ∨ a ∈ l := by
  intro l
  induction l with
  | nil => simp [insertDesc]
  | cons y r ih =>
    by_cases h : y.score ≤ x.score
    · simp [insertDesc, h]
    · simp only [insertDesc, if_neg h, List.mem_cons, ih]
      tauto

theorem mem_sortDesc {a : Scored} :
    ∀ {l : List Scored}, a ∈ sortDesc l ↔ a ∈ l := by
  intro l
  induction l with
  | nil => simp [sortDesc]
  | cons x r ih => simp [sortDesc, mem_insertDesc, ih]

theorem insertDesc_pairwise {x : Scored} :
    ∀ {l : List Scored},
      l.Pairwise (fun a b => b.score ≤ a.score) →
      (insertDesc x l).Pairwise (fun a b => b.score ≤ a.score) := by
  intro l
  induction l with
  | nil => intro _; simp [insertDesc]
  | cons y r ih =>
    intro hp
    rcases List.pairwise_cons.1 hp with ⟨hy, hr⟩
    by_cases h : y.score ≤ x.score
    · rw [insertDesc, if_pos h]
      refine List.pairwise_cons.2 ⟨?_, hp⟩
      intro z hz
      rcases List.mem_cons.1 hz with hzy | hzr
      · exact hzy ▸ h
      · exact Nat.le_trans (hy z hzr) h
    · rw [insertDesc, if_neg h]
      refine List.pairwise_cons.2 ⟨?_, ih hr⟩
      intro z hz
      rcases mem_insertDesc.1 hz with hzx | hzr
      · exact hzx ▸ Nat.le_of_lt (Nat.lt_of_not_le h)
      · exact hy z hzr

/-- The stable descending sort is sorted by descending score. -/
theorem sortDesc_sorted :
    ∀ (l : List Scored), (sortDesc l).Pairwise (fun a b => b.score ≤ a.score) := by
  intro l
  induction l with
  | nil => simp [sortDesc]
  | cons x r ih => exact insertDesc_pairwise ih

/-- Every scored source records the re-ranker score of one of the retrieved
chunks. -/
theorem mem_scoredOf {x : Scored} {answer : List Char} {docs : List SrcDoc}
    (hx : x ∈ scoredOf answer docs) :
    ∃ d ∈ docs, x.score = docScore answer d.page_content := by
  obtain ⟨d, hd, hfd⟩ := List.mem_filterMap.1 hx
  refine ⟨d, hd, ?_⟩
  by_cases h : 0 < (scoreLoopGo d.page_content 0 [] (answerKeywords answer)).1
  · simp only [scoredOf, if_pos h] at hfd
    cases hfd
    simp [docScore, chunkScore]
  · simp [scoredOf, if_neg h] at hfd

/-- A sum of keyword contributions over a filter equals the sum of the
guarded contributions over the whole list. -/
theorem filter_map_sum_eq (content : List Char) :
    ∀ (kws : List (List Char)),
      ((kws.filter fun kw => foundIn kw content).map kwContrib).sum =
        (kws.map fun kw => if foundIn kw content then kwContrib kw else 0).sum := by
  intro kws
  induction kws with
  | nil => rfl
  | cons kw rest ih =>
    by_cases h : foundIn kw content
    · simp [h, ih]
    · simp [h, ih]

/-! ### Shared lemmas about the normalizer -/

theorem mem_mapConcat {f : Nat → List Nat} {d : Nat} :
    ∀ {l : List Nat}, d ∈ mapConcat f l → ∃ c ∈ l, d ∈ f c := by
  intro l
  induction l with
  | nil => intro h; cases h
  | cons c r ih =>
    intro h
    rcases List.mem_append.1 h with h1 | h2
    · exact ⟨c, List.mem_cons_self c r, h1⟩
    · obtain ⟨b, hb, hdb⟩ := ih h2
      exact ⟨b, List.mem_cons_of_mem c hb, hdb⟩

theorem mapConcat_eq_self {f : Nat → List Nat} :
    ∀ {l : List Nat}, (∀ c ∈ l, f c = [c]) → mapConcat f l = l := by
  intro l
  induction l with
  | nil => intro _; rfl
  | cons c r ih =>
    intro h
    show f c ++ mapConcat f r = c :: r
    rw [h c (List.mem_cons_self c r), ih fun b hb => h b (List.mem_cons_of_mem c hb)]
    rfl

theorem filter_eq_self_of {p : Nat → Bool} :
    ∀ {l : List Nat}, (∀ c ∈ l, p c = true) → l.filter p = l := by
  intro l
  induction l with
  | nil => intro _; rfl
  | cons c r ih =>
    intro h
    rw [List.filter_cons, if_pos (h c (List.mem_cons_self c r)),
      ih fun b hb => h b (List.mem_cons_of_mem c hb)]

theorem assocFindN_mem : ∀ {l : List (Nat × Nat)} {k v : Nat},
    assocFindN l k = some v → ∃ p ∈ l, p.1 = k ∧ p.2 = v := by
  intro l
  induction l with
  | nil => intro k v h; cases h
  | cons q r ih =>
    intro k v h
    by_cases hk : q.1 = k
    · refine ⟨q, List.mem_cons_self q r, hk, ?_⟩
      simpa [assocFindN, hk] using h
    · obtain ⟨p, hp, h1, h2⟩ := ih (by simpa [assocFindN, hk] using h)
      exact ⟨p, List.mem_cons_of_mem q hp, h1, h2⟩

theorem assocFindL_mem : ∀ {l : List (Nat × List Nat)} {k : Nat} {v : List Nat},
    assocFindL l k = some v → ∃ p ∈ l, p.1 = k ∧ p.2 = v := by
  intro l
  induction l with
  | nil => intro k v h; cases h
  | cons q r ih =>
    intro k v h
    by_cases hk : q.1 = k
    · refine ⟨q, List.mem_cons_self q r, hk, ?_⟩
      simpa [assocFindL, hk] using h
    · obtain ⟨p, hp, h1, h2⟩ := ih (by simpa [assocFindL, hk] using h)
      exact ⟨p, List.mem_cons_of_mem q hp, h1, h2⟩

/-- Every codepoint in the image of `char_map` is fixed by the substitution
step and by NFKD (the images are plain ASCII letters). -/
theorem charMap_image_stable :
    ∀ p ∈ char_map, charMapFn p.2 = p.2 ∧ nfkdChar p.2 = [p.2] := by decide

/-- Every codepoint in the image of the NFKD table is fixed by the
substitution step and by NFKD. -/
theorem nfkd_image_stable :
    ∀ p ∈ nfkdTable, ∀ d ∈ p.2, charMapFn d = d ∧ nfkdChar d = [d] := by decide

/-- Every codepoint produced by the first three stages of `_normalize_text`
(substitution, dollar rewrite, NFKD) is a fixed point of the substitution
step and of NFKD. -/
theorem pipeline_stable (x : List Nat) :
    ∀ d ∈ mapConcat nfkdChar (mapConcat dollarRep (x.map charMapFn)),
      charMapFn d = d ∧ nfkdChar d = [d] := by
  intro d hd
  obtain ⟨c, hc, hdc⟩ := mem_mapConcat hd
  obtain ⟨b, hb, hcb⟩ := mem_mapConcat hc
  obtain ⟨a, ha, hab⟩ := List.mem_map.1 hb
  have hcases : c = 0x53 ∨ c = 0x24 ∨ c = charMapFn a := by
    by_cases hb24 : b = 0x24
    · rw [hb24] at hcb
      have : c = 0x53 ∨ c = 0x24 := by simpa [dollarRep] using hcb
      exact this.imp id Or.inl
    · have hcb' : c = b := by simpa [dollarRep, hb24] using hcb
      exact Or.inr (Or.inr (hcb'.trans hab.symm))
  cases hfind : assocFindL nfkdTable c with
  | some ds =>
    have hds : d ∈ ds := by
      have hh : nfkdChar c = ds := by simp [nfkdChar, hfind]
      rwa [hh] at hdc
    obtain ⟨p, hp, _, hv⟩ := assocFindL_mem hfind
    exact nfkd_image_stable p hp d (by rw [hv]; exact hds)
  | none =>
    have hnf : nfkdChar c = [c] := by simp [nfkdChar, hfind]
    have hdceq : d = c := by
      rw [hnf] at hdc; simpa using hdc
    subst hdceq
    refine ⟨?_, hnf⟩
    rcases hcases with h | h | h
    · rw [h]; decide
    · rw [h]; decide
    · cases hmap : assocFindN char_map a with
      | some v =>
        have hdv : d = v := by rw [h]; simp [charMapFn, hmap]
        obtain ⟨p, hp, _, hv⟩ := assocFindN_mem hmap
        rw [hdv, ← hv]
        exact (charMap_image_stable p hp).1
      | none =>
        have hda : d = a := by rw [h]; simp [charMapFn, hmap]
        rw [hda]
        simp [charMapFn, hmap]

/-! ### Claim C2: idempotence of the text normalizer -/

/-- C2 counterexample: the normalizer is not idempotent.  On the one-character
input `"$"` (codepoint 0x24) the first pass yields `"S$"` and the second pass
yields `"SS$"`, because the `replace('$', 'S$')` step reintroduces a dollar
sign into its own output. -/
theorem normalize_text_not_idempotent :
    normalize_text (normalize_text [0x24]) ≠ normalize_text [0x24] := by decide

/-- C2 amended: the normalizer is idempotent on every input whose normalized
form contains no dollar sign (codepoint 0x24).  Substitution, NFKD and the
printability filter are idempotent as in the claim; only the
dollar-to-`S$` rewrite breaks idempotence, and it acts exactly on the
dollar signs present in the normalized output. -/
theorem normalize_text_idempotent_of_dollar_free (x : List Nat)
    (h : 0x24 ∉ normalize_text x) :
    normalize_text (normalize_text x) = normalize_text x := by
  have hstab : ∀ d ∈ normalize_text x, charMapFn d = d ∧ nfkdChar d = [d] :=
    fun d hd => pipeline_stable x d (List.mem_of_mem_filter hd)
  have hkeep : ∀ d ∈ normalize_text x, pyKeep d = true :=
    fun d hd => List.of_mem_filter hd
  have hno : ∀ d ∈ normalize_text x, d ≠ 0x24 :=
    fun d hd heq => h (heq ▸ hd)
  show (mapConcat nfkdChar (mapConcat dollarRep
      ((normalize_text x).map charMapFn))).filter pyKeep = normalize_text x
  rw [List.map_congr_left (fun a ha => (hstab a ha).1), List.map_id',
    mapConcat_eq_self (f := dollarRep) (fun c hc => by simp [dollarRep, hno c hc]),
    mapConcat_eq_self (f := nfkdChar) (fun c hc => (hstab c hc).2),
    filter_eq_self_of hkeep]

/-- C2 witness: the amended idempotence theorem applied at the concrete
dollar-free input `"a"` (codepoint 0x61). -/
theorem normalize_text_idempotent_witness :
    0x24 ∉ normalize_text [0x61] ∧
      normalize_text (normalize_text [0x61]) = normalize_text [0x61] :=
  ⟨by decide, normalize_text_idempotent_of_dollar_free [0x61] (by decide)⟩

/-! ### Claim C3: per-token weights of the re-ranker -/

/-- C3 counterexample: `12/25/2023` is a salient *date* token of the answer
`Due 12/25/2023` — the date regex extracts it and the number regex does not
(the numbers found are `12`, `25`, `2023`) — yet its contribution is 10, not
the 8 the claim assigns to date tokens: the scoring loop tests
`re.match(r'\$?\d+', keyword)` first, and a slash-date starts with digits. -/
theorem rerank_weights_cex :
    tokC3 ∈ findDates ansC3 ∧ tokC3 ∉ findNumbers ansC3 ∧
      tokC3 ∈ answerKeywords ansC3 ∧ kwContrib tokC3 = 10 := by decide

/-- C3 amended: each salient token found in the chunk contributes exactly 10
points if it starts with an optional dollar sign followed by a digit (which
covers numeric/currency tokens and slash- or dash-separated date tokens),
otherwise exactly 8 points if it contains two short digit groups separated
by a slash or dash, and exactly 2 points otherwise; the chunk's score is the
sum of these per-token contributions. -/
theorem rerank_weights_amended (kws : List (List Char)) (content : List Char) :
    chunkScore kws content =
      ((kws.filter fun kw => foundIn kw content).map fun kw =>
        if matchesNumLead kw then 10
        else if containsDayPair kw then 8
        else 2).sum := by
  rw [chunkScore_eq_sum]
  rfl

/-! ### Claim C4: the first-3 fallback of the re-ranker -/

/-- C4 counterexample: against the answer `Rent: 2500` every chunk of the
fixture scores below 20, yet the returned list is not the first 3 raw chunks
with score 0 — the answer has exactly one numeric token and no dates, so the
final collapse at line 634 truncates the fallback to a single source. -/
theorem rerank_fallback_cex :
    (∀ d ∈ docsC4, docScore ansC4 d.page_content < 20) ∧
      computeSources ansC4 docsC4 ≠ (docsC4.take 3).map fallbackOut := by decide

/-- C4 amended: when no retrieved chunk scores at least 20, the returned
source list equals the first 3 raw retrieved chunks with score 0 — provided
the answer text is non-empty and does not consist of exactly one numeric
token with zero date tokens (in that case the final single-number collapse
truncates the fallback to its first entry). -/
theorem rerank_fallback_amended (answer : List Char) (docs : List SrcDoc)
    (ha : answer ≠ [])
    (hcol : ¬((findNumbers answer).length = 1 ∧ (findDates answer).length = 0))
    (hlow : ∀ d ∈ docs, docScore answer d.page_content < 20) :
    computeSources answer docs = (docs.take 3).map fallbackOut := by
  by_cases hd : docs = []
  · subst hd; simp [computeSources]
  have hguard : ¬(answer = [] ∨ docs = []) := fun h => h.elim ha hd
  have hfilt : filteredOf answer docs = [] := by
    rw [filteredOf, List.filter_eq_nil_iff]
    intro x hx
    obtain ⟨d, hdm, hsc⟩ := mem_scoredOf (mem_sortDesc.1 hx)
    have hlt := hlow d hdm
    simp only [decide_eq_true_eq]
    omega
  have hsel : selectSources answer docs = (docs.take 3).map fallbackOut := by
    by_cases hs : scoredOf answer docs = []
    · rw [selectSources, if_pos hs]
    · rw [selectSources, if_neg hs, if_pos hfilt]
  have hC : ¬((findNumbers answer).length = 1 ∧ (findDates answer).length = 0 ∧
      1 < ((docs.take 3).map fallbackOut).length) :=
    fun hcon => hcol ⟨hcon.1, hcon.2.1⟩
  simp only [computeSources]
  rw [if_neg hguard, hsel, if_neg hC]

/-- C4 witness: the amended fallback theorem applied at the concrete fixture
(answer `The rent rises`, one chunk scoring 4). -/
theorem rerank_fallback_witness :
    (ansC4w ≠ [] ∧
        ¬((findNumbers ansC4w).length = 1 ∧ (findDates ansC4w).length = 0) ∧
        ∀ d ∈ docsC4w, docScore ansC4w d.page_content < 20) ∧
      computeSources ansC4w docsC4w = (docsC4w.take 3).map fallbackOut :=
  ⟨⟨by decide, by decide, by decide⟩,
   rerank_fallback_amended ansC4w docsC4w (by decide) (by decide) (by decide)⟩

/-! ### Claim C5: result cardinality of the re-ranker -/

/-- C5 counterexample: against the answer
`Rent 2500 with monthly payment amounts included herein` three chunks clear
the threshold (the filtered set has 3 members), yet the result is not the
top 3 — the answer has exactly one numeric token and no dates, so the final
collapse truncates the top 3 to a single source. -/
theorem rerank_cardinality_cex :
    3 ≤ (filteredOf ansC5 docsC5).length ∧
      computeSources ansC5 docsC5 ≠
        ((filteredOf ansC5 docsC5).take 3).map scoredOut := by decide

/-- C5 amended: when some chunk scores at least 20 — and the answer is
non-empty and does not consist of exactly one numeric token with zero date
tokens (the final collapse case) — the result is the filtered list cut to
one entry if it has fewer than 3 members and to its top 3 otherwise; the
filtered list is sorted by descending score and contains every retrieved
chunk scoring at least 20, so the single entry is a highest-scoring chunk
and the top 3 are the three highest. -/
theorem rerank_cardinality_amended (answer : List Char) (docs : List SrcDoc)
    (ha : answer ≠ [])
    (hcol : ¬((findNumbers answer).length = 1 ∧ (findDates answer).length = 0))
    (hne : filteredOf answer docs ≠ []) :
    computeSources answer docs =
      ((filteredOf answer docs).take
        (if (filteredOf answer docs).length < 3 then 1 else 3)).map scoredOut ∧
      (filteredOf answer docs).Pairwise (fun a b => b.score ≤ a.score) ∧
      ∀ x ∈ scoredOf answer docs, 20 ≤ x.score → x ∈ filteredOf answer docs := by
  have hs : scoredOf answer docs ≠ [] := by
    intro h
    exact hne (by rw [filteredOf, h]; rfl)
  have hd : docs ≠ [] := by
    intro h
    exact hs (by rw [h]; rfl)
  have hguard : ¬(answer = [] ∨ docs = []) := fun h => h.elim ha hd
  have hsel : selectSources answer docs =
      ((filteredOf answer docs).take
        (if (filteredOf answer docs).length < 3 then 1 else 3)).map scoredOut := by
    rw [selectSources, if_neg hs, if_neg hne]
  refine ⟨?_, ?_, ?_⟩
  · have hC : ¬((findNumbers answer).length = 1 ∧ (findDates answer).length = 0 ∧
        1 < (((filteredOf answer docs).take
          (if (filteredOf answer docs).length < 3 then 1 else 3)).map
            scoredOut).length) :=
      fun hcon => hcol ⟨hcon.1, hcon.2.1⟩
    simp only [computeSources]
    rw [if_neg hguard, hsel, if_neg hC]
  · exact List.Pairwise.sublist (List.filter_sublist _) (sortDesc_sorted _)
  · intro x hx h20
    rw [filteredOf]
    exact List.mem_filter.2 ⟨mem_sortDesc.2 hx, by simpa using h20⟩

/-- C5 witness: the amended cardinality theorem applied at the concrete
fixture (two numeric tokens, one chunk scoring 28, filtered set of size
1 < 3, result cut to that single chunk). -/
theorem rerank_cardinality_witness :
    (ansC5w ≠ [] ∧
        ¬((findNumbers ansC5w).length = 1 ∧ (findDates ansC5w).length = 0) ∧
        filteredOf ansC5w docsC5w ≠ []) ∧
      computeSources ansC5w docsC5w =
        ((filteredOf ansC5w docsC5w).take
          (if (filteredOf ansC5w docsC5w).length < 3 then 1 else 3)).map
            scoredOut :=
  ⟨⟨by decide, by decide, by decide⟩,
   (rerank_cardinality_amended ansC5w docsC5w (by decide) (by decide)
      (by decide)).1⟩

/-! ### Claim C6: margin between a currency-bearing chunk and a
generic-keyword chunk -/

/-- C6 counterexample: for the answer `The rent is $2,500 per month`, the
chunk `amount due: $2,500` contains the answer's currency amount and scores
10, while the chunk `tenant pays rent` matches only the generic keyword
`rent` and scores 2 — a margin of 8, not the at-least-10 the claim states. -/
theorem currency_margin_cex :
    amtC6 ∈ answerKeywords ansC6 ∧ matchesNumLead amtC6 = true ∧
      foundIn amtC6 chunkC6a = true ∧
      (answerKeywords ansC6).filter (fun k => foundIn k chunkC6b) = [kwC6] ∧
      matchesNumLead kwC6 = false ∧ containsDayPair kwC6 = false ∧
      docScore ansC6 chunkC6a = 10 ∧ docScore ansC6 chunkC6b = 2 ∧
      ¬(docScore ansC6 chunkC6b + 10 ≤ docScore ansC6 chunkC6a) := by decide

/-- C6 amended: a chunk containing a currency amount of the answer scores at
least 8 points more than a chunk matching only a single generic (non-numeric,
non-date) keyword: the currency match alone contributes 10 and the generic
chunk's whole score is 2. -/
theorem currency_margin_amended (answer c1 c2 amt kw : List Char)
    (hamt : amt ∈ answerKeywords answer) (hnum : matchesNumLead amt = true)
    (hfound : foundIn amt c1 = true)
    (honly : (answerKeywords answer).filter (fun k => foundIn k c2) = [kw])
    (hkw1 : matchesNumLead kw = false) (hkw2 : containsDayPair kw = false) :
    docScore answer c2 + 8 ≤ docScore answer c1 := by
  have h2 : docScore answer c2 = 2 := by
    rw [docScore, chunkScore_eq_sum, honly]
    simp [kwContrib, hkw1, hkw2]
  have h1 : 10 ≤ docScore answer c1 := by
    rw [docScore, chunkScore_eq_sum]
    have hmem : amt ∈ (answerKeywords answer).filter fun k => foundIn k c1 :=
      List.mem_filter.2 ⟨hamt, by simpa using hfound⟩
    have hle : kwContrib amt ≤
        (((answerKeywords answer).filter fun k => foundIn k c1).map kwContrib).sum :=
      List.single_le_sum (fun x _ => Nat.zero_le x) _
        (List.mem_map_of_mem kwContrib hmem)
    have h10 : kwContrib amt = 10 := by simp [kwContrib, hnum]
    omega
  omega

/-- C6 witness: the amended margin theorem applied at the concrete fixture
(scores 10 versus 2). -/
theorem currency_margin_witness :
    docScore ansC6 chunkC6b + 8 ≤ docScore ansC6 chunkC6a :=
  currency_margin_amended ansC6 chunkC6a chunkC6b amtC6 kwC6
    (by decide) (by decide) (by decide) (by decide) (by decide) (by decide)

/-! ### Claim C1: the single-active-document invariant -/

/-- C1 confirmed: from a state with document `d1` active, loading a
different document `d2` (file present, no cache entry, extraction producing
`c2`) first clears the store, the index and the memory
(`ensure_single_document` returns the cleared state before any ingestion),
and afterwards the document store holds exactly `d2 ↦ c2`, the vector store
and retriever index exactly `c2`, and the conversation memory is empty. -/
theorem single_active_document (st : RagState) (d1 d2 : List Char)
    (c1 c2 : List Chunk)
    (hdoc : st.documents = [(d1, c1)]) (hne : d2 ≠ d1) (hc2 : c2 ≠ []) :
    ensure_single_document st d2 = (false, clear_all_documents st) ∧
      load_pdf st d2 true CacheRead.absent (some c2) true =
        .ok (⟨true, ("Successfully loaded").data⟩,
          ⟨[(d2, c2)], [(d2, ⟨c2.length⟩)], some c2, some c2, []⟩) := by
  have hbeq : (d1 == d2) = false :=
    beq_eq_false_iff_ne.2 fun h => hne h.symm
  have hhas : hasDoc st d2 = false := by
    simp [hasDoc, hdoc, hbeq]
  have hens : ensure_single_document st d2 = (false, clear_all_documents st) := by
    rw [ensure_single_document, if_neg, if_pos]
    · exact ⟨by simp [hdoc], by simp [hhas]⟩
    · intro hcon
      rw [hhas] at hcon
      exact absurd hcon.2 (by simp)
  refine ⟨hens, ?_⟩
  simp [load_pdf, hens, clear_all_documents, assocUpdate, rebuild_vectorstore,
    hc2]

/-- C1 witness: the invariant theorem applied at a concrete state with
`a.pdf` active (index built, one remembered turn) and `b.pdf` loaded next. -/
theorem single_active_document_witness :
    (stC1.documents = [(("a.pdf").data, [⟨("alpha").data⟩])] ∧
        ("b.pdf").data ≠ ("a.pdf").data ∧ chunksC1 ≠ []) ∧
      ensure_single_document stC1 (("b.pdf").data) =
          (false, clear_all_documents stC1) ∧
        load_pdf stC1 (("b.pdf").data) true CacheRead.absent (some chunksC1)
            true =
          .ok (⟨true, ("Successfully loaded").data⟩,
            ⟨[(("b.pdf").data, chunksC1)],
             [(("b.pdf").data, ⟨chunksC1.length⟩)],
             some chunksC1, some chunksC1, []⟩) :=
  ⟨⟨by decide, by decide, by decide⟩,
   single_active_document stC1 (("a.pdf").data) (("b.pdf").data)
     [⟨("alpha").data⟩] chunksC1 (by decide) (by decide) (by decide)⟩

/-! ### Claim C7: the no-index early return of `ask_question` -/

/-- C7 confirmed: with no vector store, `ask_question` returns the fixed
`No contract loaded` answer with an empty source list as an ordinary result
(never an error), leaving the state untouched — structurally distinguishable
from an operation failure, which would be an `error` value. -/
theorem no_index_returns_fixed_answer (st : RagState) (q : List Char)
    (backend : Backend) (h : st.vectorstore = none) :
    ask_question st q backend = (.ok ⟨no_contract_answer, [], none⟩, st) ∧
      ∀ e, (ask_question st q backend).1 ≠ .error e := by
  have heq : ask_question st q backend = (.ok ⟨no_contract_answer, [], none⟩, st) := by
    simp [ask_question, h]
  exact ⟨heq, fun e => by simp [heq]⟩

/-- C7 witness: the early-return theorem applied at a freshly constructed
(empty) state and an arbitrary failing backend. -/
theorem no_index_returns_fixed_answer_witness :
    emptyState.vectorstore = none ∧
      ask_question emptyState (("hi").data) backendErr =
        (.ok ⟨no_contract_answer, [], none⟩, emptyState) :=
  ⟨rfl,
   (no_index_returns_fixed_answer emptyState (("hi").data) backendErr rfl).1⟩

/-! ### Claim C8: conversation-memory atomicity in `ask_question` -/

/-- C8 confirmed: with an index present, if the backend call raises then the
exception propagates and the state (in particular the conversation memory)
is unchanged; if the backend call succeeds, the `(question, answer)` turn is
appended to the memory and the result carries the post-processed sources. -/
theorem memory_write_after_success (st : RagState) (q : List Char)
    (backend : Backend) (v : List Chunk) (hv : st.vectorstore = some v) :
    (∀ e, backend q (windowHistory 3 st.memory) = .error e →
        ask_question st q backend = (.error e, st)) ∧
      ∀ ans docs toks,
        backend q (windowHistory 3 st.memory) = .ok (ans, docs, toks) →
          ask_question st q backend =
            (.ok ⟨ans, computeSources ans docs, some toks⟩,
             { st with memory := st.memory ++ [(q, ans)] }) := by
  constructor
  · intro e he
    simp [ask_question, hv, he]
  · intro ans docs toks hb
    simp [ask_question, hv, hb]

/-- C8 witness: the atomicity theorem applied at a concrete state with one
remembered turn, once with a raising backend (memory unchanged, error
propagated) and once with a succeeding backend (turn appended). -/
theorem memory_write_after_success_witness :
    ask_question stC8 (("q2").data) backendErr = (.error (("boom").data), stC8) ∧
      ask_question stC8 (("q2").data) backendOk =
        (.ok ⟨("ans2").data, computeSources (("ans2").data) [], some 7⟩,
         { stC8 with memory := stC8.memory ++ [((("q2").data), ("ans2").data)] }) :=
  ⟨(memory_write_after_success stC8 (("q2").data) backendErr _ rfl).1 _ rfl,
   (memory_write_after_success stC8 (("q2").data) backendOk _ rfl).2 _ _ _ rfl⟩

/-! ### Claim C9: cache-read failure handling in `load_pdf` -/

/-- C9 counterexample: at a fresh state, a cache entry whose read raises
makes `load_pdf` propagate the exception to the caller, whereas the same
load with no cache entry (the true miss) proceeds to fresh extraction and
succeeds — the raising read is *not* degraded to a miss: lines 230-236 have
no exception handler. -/
theorem cache_error_not_degraded_cex :
    load_pdf emptyState pathC9 true (CacheRead.failed errC9) (some chunksC9)
        true = .error errC9 ∧
      load_pdf emptyState pathC9 true CacheRead.absent (some chunksC9) true =
        .ok (⟨true, ("Successfully loaded").data⟩,
          ⟨[(pathC9, chunksC9)], [(pathC9, ⟨chunksC9.length⟩)],
           some chunksC9, some chunksC9, []⟩) := ⟨rfl, rfl⟩

/-- C9 amended: whenever the load reaches the cache branch (the requested
document is not the single already-loaded one) and the cache read raises,
`load_pdf` propagates the exception unchanged to the caller; only an absent
cache entry degrades to fresh extraction and chunking. -/
theorem cache_error_propagates (st : RagState) (path : List Char)
    (extract : Option (List Chunk)) (e : List Char)
    (h : ¬(st.documents.length = 1 ∧ hasDoc st path)) :
    load_pdf st path true (CacheRead.failed e) extract true = .error e := by
  have hfst : (ensure_single_document st path).1 = false := by
    rw [ensure_single_document]
    by_cases h2 : st.documents ≠ [] ∧ ¬hasDoc st path
    · rw [if_neg h, if_pos h2]
    · rw [if_neg h, if_neg h2]
  have hpair : ensure_single_document st path =
      (false, (ensure_single_document st path).2) := by
    rw [← hfst]
  rw [load_pdf, if_neg (by simp), hpair]

/-- C9 witness: the propagation theorem applied at the fresh state and the
corrupt cache entry of the counterexample. -/
theorem cache_error_propagates_witness :
    ¬(emptyState.documents.length = 1 ∧ hasDoc emptyState pathC9) ∧
      load_pdf emptyState pathC9 true (CacheRead.failed errC9)
        (some chunksC9) true = .error errC9 :=
  ⟨by decide,
   cache_error_propagates emptyState pathC9 (some chunksC9) errC9 (by decide)⟩

/-! ### Claim C10: set semantics of the salient-token collection -/

/-- C10 confirmed: the salient tokens are collected into a set (the keyword
list is duplicate-free), and a chunk's score is the sum over the *distinct*
extracted tokens of their guarded contributions — each distinct token counts
at most once, and the score depends only on the token set. -/
theorem keyword_set_semantics (answer content : List Char) :
    (answerKeywords answer).Nodup ∧
      chunkScore (answerKeywords answer) content =
        (answerKeywords answer).toFinset.sum
          fun kw => if foundIn kw content then kwContrib kw else 0 := by
  have hnd : (answerKeywords answer).Nodup := by
    unfold answerKeywords; exact List.nodup_dedup _
  refine ⟨hnd, ?_⟩
  rw [List.sum_toFinset _ hnd, chunkScore_eq_sum, filter_map_sum_eq]

end RagSpec
